import Mathlib

/-!
Verification of the PPU device-plugin core (package `deviceplugin`):
a shallow embedding of the device registry, the allocation negotiator
(`Allocate`, `GetPreferredAllocation`), the health-monitor tick body
(`startHealthCheck`), registry initialization (`initDevices`) and the
`ListAndWatch` snapshot/event-handling logic, together with theorems
settling the spec's claims about them.

Modelling conventions:
  * `v1beta1.Device` is a structure of its two used fields `ID` and
    `Health` (health is the protocol's string enum, `"Healthy"` /
    `"Unhealthy"`).
  * The Go registry `p.devices : map[string]*v1beta1.Device` is modelled
    as a list of devices; lookup by id is `List.find?` on the `ID` field.
    Go map keys are unique, so where a theorem needs it we carry the
    hypothesis that the listed `ID`s are `Nodup`.
  * Go map iteration order is not specified by the language and is
    randomized between iterations at runtime; where the order of a loop
    over the map is observable (the `ListAndWatch` snapshot) it is made
    an explicit parameter constrained to be a permutation of the index
    range.
  * The gRPC handlers always return a `nil` error; each embedded handler
    returns its payload paired with an `Option String` error component
    that the source forces to `none`.
-/

namespace PPU

/-- The two health values of the kubelet device-plugin API
(`v1beta1.Healthy` / `v1beta1.Unhealthy`), string constants in Go. -/
def Healthy : String := "Healthy"

/-- `v1beta1.Unhealthy`. -/
def Unhealthy : String := "Unhealthy"

/-- `v1beta1.Device`: the two fields this program uses. -/
structure Device where
  ID : String
  Health : String
deriving DecidableEq, Repr

/-- The plugin's device registry `p.devices` (a Go `map[string]*Device`),
modelled as the list of stored devices. -/
abbrev Registry := List Device

/-- Go map lookup `p.devices[id]`: the stored device with this id, if any. -/
def Registry.get (devices : Registry) (id : String) : Option Device :=
  devices.find? (fun d => d.ID == id)

/-- The existence-and-health test at part_000 lines 96-97:
`device, exists := p.devices[deviceID]; exists && device.Health == Healthy`. -/
def isHealthyIn (devices : Registry) (id : String) : Bool :=
  match Registry.get devices id with
  | some device => device.Health == Healthy
  | none => false

/-- The inner loop of `Allocate` (part_000 lines 94-106): walk the
requested ids in order and keep exactly those that are present in the
registry with health `Healthy`. -/
def allocatedDevices (devices : Registry) (requested : List String) : List String :=
  requested.filter (fun deviceID => isHealthyIn devices deviceID)

/-- `v1beta1.Mount` (the program only ever builds the empty mount list). -/
structure Mount where
  ContainerPath : String
  HostPath : String
  ReadOnly : Bool
deriving DecidableEq, Repr

/-- `v1beta1.DeviceSpec`. -/
structure DeviceSpec where
  ContainerPath : String
  HostPath : String
  Permissions : String
deriving DecidableEq, Repr

/-- `v1beta1.ContainerAllocateResponse`; the two Go string maps `Envs` and
`Annotations` are association lists. -/
structure ContainerAllocateResponse where
  Envs : List (String × String)
  Mounts : List Mount
  Devices : List DeviceSpec
  Annotations : List (String × String)
deriving DecidableEq, Repr

/-- The device-spec built for one allocated id (part_000 lines 122-127). -/
def deviceSpecFor (deviceID : String) : DeviceSpec :=
  { ContainerPath := "/dev/" ++ deviceID
    HostPath := "/dev/null"
    Permissions := "rw" }

/-- The body of `Allocate` for one container request
(part_000 lines 89-133): filter the requested ids, then build the
response with the count env var (`fmt.Sprintf` of the decimal count),
the comma-joined id list, an empty mount list, one device spec per
allocated id, and the annotation. -/
def allocateContainer (devices : Registry) (requested : List String) :
    ContainerAllocateResponse :=
  let allocated := allocatedDevices devices requested
  { Envs := [("PPU_DEVICE_COUNT", toString allocated.length),
             ("PPU_ALLOCATED_DEVICES", String.intercalate "," allocated)]
    Mounts := []
    Devices := allocated.map deviceSpecFor
    Annotations := [("ppu.alibabacloud.com/allocated-devices",
                     String.intercalate "," allocated)] }

/-- `Allocate` (part_000 lines 84-142): map `allocateContainer` over the
per-container requests; the Go handler returns the response and a `nil`
error, modelled as the `none` second component. -/
def Allocate (devices : Registry) (containerRequests : List (List String)) :
    List ContainerAllocateResponse × Option String :=
  (containerRequests.map (allocateContainer devices), none)

/-- `v1beta1.ContainerPreferredAllocationRequest` (the fields this program
uses); `AllocationSize` is a Go `int32`, modelled as `Int`. -/
structure ContainerPreferredAllocationRequest where
  AvailableDeviceIDs : List String
  MustIncludeDeviceIDs : List String
  AllocationSize : Int
deriving DecidableEq, Repr

/-- The second pass of `GetPreferredAllocation` (part_000 lines 163-182):
walk the available ids in order; at each iteration, stop if `needed <= 0`;
skip an id already in `selected` (the `alreadySelected` inner scan);
otherwise append it and decrement `needed`. -/
def selectLoop (selected : List String) (needed : Int) :
    List String → List String
  | [] => selected
  | deviceID :: rest =>
    if needed ≤ 0 then selected
    else if selected.contains deviceID then selectLoop selected needed rest
    else selectLoop (selected ++ [deviceID]) (needed - 1) rest

/-- The per-container body of `GetPreferredAllocation`
(part_000 lines 154-182): seed `selectedDeviceIDs` with every
must-include id in order (no deduplication), set
`needed = AllocationSize - len(selected)`, then run the second pass over
the available ids. -/
def selectedDeviceIDs (req : ContainerPreferredAllocationRequest) :
    List String :=
  selectLoop req.MustIncludeDeviceIDs
    (req.AllocationSize - (req.MustIncludeDeviceIDs.length : Int))
    req.AvailableDeviceIDs

/-- `GetPreferredAllocation` (part_000 lines 145-198): map the
per-container selection; the Go handler returns a `nil` error (`none`). -/
def GetPreferredAllocation
    (containerRequests : List ContainerPreferredAllocationRequest) :
    List (List String) × Option String :=
  (containerRequests.map (fun req => selectedDeviceIDs req), none)

/-- Modelled from the spec (§4.3 GetPreferredAllocation, steps 1-4), for
comparison with `selectedDeviceIDs`: walk the available ids in order;
for each id not already present in the result, append it and decrement
`remaining`, stopping as soon as `remaining <= 0`. -/
def specPreferredWalk (result : List String) (remaining : Int) :
    List String → List String
  | [] => result
  | id :: rest =>
    if result.contains id then specPreferredWalk result remaining rest
    else if remaining ≤ 0 then result
    else specPreferredWalk (result ++ [id]) (remaining - 1) rest

/-- Modelled from the spec (§4.3 GetPreferredAllocation): seed the result
with every must-include id in the order given, compute
`remaining = desired_count - len(result)`, then run the spec's walk over
the available ids. -/
def specPreferredAllocation (req : ContainerPreferredAllocationRequest) :
    List String :=
  specPreferredWalk req.MustIncludeDeviceIDs
    (req.AllocationSize - (req.MustIncludeDeviceIDs.length : Int))
    req.AvailableDeviceIDs

/-- `initDevices` (plugin.go lines 93-109): the loop
`for i := 0; i < p.deviceCount; i++` stores a device `ppu-<i>` with
health `Healthy` for each `i`; a negative count runs zero iterations
(`Int.toNat` of a negative is 0), leaving the registry empty.  The Go
method always returns a `nil` error, modelled as the `none` component. -/
def initDevices (deviceCount : Int) : Registry × Option String :=
  ((List.range deviceCount.toNat).map
      (fun i => { ID := "ppu-" ++ toString i, Health := Healthy }), none)

/-- One Health Monitor tick body (part_000 lines 235-250) over the whole
registry.  The Go loop visits every map entry once; for an entry whose
health is not `Healthy` it writes `Healthy` into the registry entry and
then attempts a non-blocking send of that device on the unbuffered
`p.health` channel (a `select` whose `default` branch drops the event).
`ready id` models whether that send finds a ready receiver at that
moment.  The pair separates the loop's two per-entry effects: the
mutated registry, and the list of ids whose event was actually
delivered (per-entry effects are independent, so the decomposition is
the same state transformation as the single Go loop, for any map
iteration order). -/
def healthCheckTick (devices : Registry) (ready : String → Bool) :
    Registry × List String :=
  (devices.map (fun device =>
      if device.Health == Healthy then device
      else { device with Health := Healthy }),
   devices.filterMap (fun device =>
      if device.Health == Healthy then none
      else if ready device.ID then some device.ID else none))

/-- The initial-snapshot construction in `ListAndWatch`
(part_000 lines 30-33): `for _, device := range p.devices` copies every
stored device into the outgoing list.  Go does not specify map iteration
order (and randomizes it between iterations), so the order is an
explicit parameter: the sequence of registry positions the runtime
happens to visit. -/
def snapshotUnder (devices : Registry) (order : List Nat) : List Device :=
  order.filterMap (fun i => devices.get? i)

/-- A possible Go map iteration order over the registry: every stored
entry is visited exactly once, in an arbitrary order. -/
abbrev IterationOrder (devices : Registry) (order : List Nat) : Prop :=
  order.Perm (List.range devices.length)

/-- The health-event branch of `ListAndWatch` (part_000 lines 50-57).
The `p.health` channel carries `*v1beta1.Device` — a pointer into the
registry itself — so when the branch runs, `device.Health` reads the
registry's current health for that id, never a stale copy.  The branch
looks the id up in `p.devices` and, if present, assigns that current
health back to the entry (`existingDevice.Health = device.Health`).
The induced state transformation: replace the matching entry's health
with the health the registry currently records for that id. -/
def handleHealthEvent (devices : Registry) (eventID : String) : Registry :=
  match Registry.get devices eventID with
  | some device =>
      devices.map (fun e =>
        if e.ID == eventID then { e with Health := device.Health } else e)
  | none => devices

end PPU

namespace PPU

/-- Claim C1: `Allocate` is a pure filter: for every container request the
allocated-id list contains exactly those requested ids that are present in
the registry with health `Healthy` (hence a subset of the requested ids,
absent and unhealthy ids excluded), and the `PPU_DEVICE_COUNT` env var is
the decimal rendering of the allocated list's length. -/
theorem Allocate_pure_filter (devices : Registry)
    (containerRequests : List (List String)) (requested : List String) :
    (Allocate devices containerRequests).1
      = containerRequests.map (allocateContainer devices)
    ∧ (∀ id, id ∈ allocatedDevices devices requested ↔
        id ∈ requested ∧
          ∃ d, Registry.get devices id = some d ∧ d.Health = Healthy)
    ∧ allocatedDevices devices requested ⊆ requested
    ∧ List.lookup "PPU_DEVICE_COUNT" (allocateContainer devices requested).Envs
        = some (toString (allocatedDevices devices requested).length) := by
  refine ⟨rfl, ?_, ?_, ?_⟩
  · intro id
    simp only [allocatedDevices, List.mem_filter, isHealthyIn]
    constructor
    · rintro ⟨hmem, hh⟩
      refine ⟨hmem, ?_⟩
      cases hget : Registry.get devices id with
      | none => rw [hget] at hh; exact absurd hh (by simp)
      | some d =>
        rw [hget] at hh
        exact ⟨d, rfl, by simpa using hh⟩
    · rintro ⟨hmem, d, hget, hh⟩
      exact ⟨hmem, by rw [hget]; simpa using hh⟩
  · intro id hid
    exact (List.mem_filter.mp hid).1
  · rfl

/-- Witness for C1: registry `[ppu-0 Healthy, ppu-1 Unhealthy]`, request
`[ppu-0, ppu-1, ppu-9]`: only `ppu-0` is allocated and the count env var
is `"1"`. -/
theorem Allocate_pure_filter_witness :
    allocatedDevices
        [⟨"ppu-0", Healthy⟩, ⟨"ppu-1", Unhealthy⟩] ["ppu-0", "ppu-1", "ppu-9"]
      = ["ppu-0"]
    ∧ List.lookup "PPU_DEVICE_COUNT"
        (allocateContainer
          [⟨"ppu-0", Healthy⟩, ⟨"ppu-1", Unhealthy⟩]
          ["ppu-0", "ppu-1", "ppu-9"]).Envs
      = some "1" := by
  have h := Allocate_pure_filter
    [⟨"ppu-0", Healthy⟩, ⟨"ppu-1", Unhealthy⟩] [] ["ppu-0", "ppu-1", "ppu-9"]
  refine ⟨by decide, ?_⟩
  rw [h.2.2.2]
  decide

/-- The second pass never grows the selection past
`len(selected) + max(needed, 0)`. -/
theorem selectLoop_length (avail : List String) :
    ∀ (selected : List String) (needed : Int),
      ((selectLoop selected needed avail).length : Int)
        ≤ (selected.length : Int) + max needed 0 := by
  induction avail with
  | nil =>
    intro s n
    exact le_add_of_nonneg_right (le_max_right n 0)
  | cons d rest ih =>
    intro s n
    simp only [selectLoop]
    split
    · exact le_add_of_nonneg_right (le_max_right n 0)
    · rename_i hn
      split
      · exact ih s n
      · have h := ih (s ++ [d]) (n - 1)
        have h1 : max (n - 1) 0 = n - 1 := max_eq_left (by omega)
        have h2 : max n 0 = n := max_eq_left (by omega)
        rw [h1] at h
        rw [h2]
        simp only [List.length_append, List.length_singleton] at h
        omega

/-- Every id in the selection came from the seed or the available list. -/
theorem selectLoop_subset (avail : List String) :
    ∀ (selected : List String) (needed : Int) (id : String),
      id ∈ selectLoop selected needed avail → id ∈ selected ∨ id ∈ avail := by
  induction avail with
  | nil =>
    intro s n id h
    exact Or.inl h
  | cons d rest ih =>
    intro s n id h
    simp only [selectLoop] at h
    split at h
    · exact Or.inl h
    · split at h
      · rcases ih s n id h with hs | hr
        · exact Or.inl hs
        · exact Or.inr (List.mem_cons_of_mem d hr)
      · rcases ih (s ++ [d]) (n - 1) id h with hs | hr
        · rcases List.mem_append.mp hs with hs' | hd
          · exact Or.inl hs'
          · exact Or.inr (List.mem_cons.mpr (Or.inl (List.mem_singleton.mp hd)))
        · exact Or.inr (List.mem_cons_of_mem d hr)

/-- The second pass never appends an id already in the selection, so the
multiplicity of any seeded id is preserved. -/
theorem selectLoop_count (avail : List String) :
    ∀ (selected : List String) (needed : Int) (id : String),
      id ∈ selected →
        (selectLoop selected needed avail).count id = selected.count id := by
  induction avail with
  | nil =>
    intro s n id _
    rfl
  | cons d rest ih =>
    intro s n id hid
    simp only [selectLoop]
    split
    · rfl
    · split
      · exact ih s n id hid
      · rename_i hd
        have hmem : id ∈ s ++ [d] := List.mem_append.mpr (Or.inl hid)
        rw [ih (s ++ [d]) (n - 1) id hmem]
        have hne : id ∉ [d] := by
          intro hc
          rw [List.mem_singleton.mp hc] at hid
          exact hd (List.elem_iff.mpr hid)
        rw [List.count_append, List.count_eq_zero.mpr hne]
        omega

/-- The spec's walk appends nothing once `remaining <= 0`. -/
theorem specPreferredWalk_nonpos (avail : List String) :
    ∀ (result : List String) (remaining : Int), remaining ≤ 0 →
      specPreferredWalk result remaining avail = result := by
  induction avail with
  | nil =>
    intro r n _
    rfl
  | cons d rest ih =>
    intro r n hn
    simp only [specPreferredWalk]
    split
    · exact ih r n hn
    · simp [hn]

/-- The source's loop (stop-check first) and the spec's walk
(duplicate-skip first) compute the same selection. -/
theorem selectLoop_eq_specWalk (avail : List String) :
    ∀ (selected : List String) (needed : Int),
      selectLoop selected needed avail
        = specPreferredWalk selected needed avail := by
  induction avail with
  | nil =>
    intro s n
    rfl
  | cons d rest ih =>
    intro s n
    simp only [selectLoop, specPreferredWalk]
    by_cases hn : n ≤ 0
    · simp only [if_pos hn]
      by_cases hd : s.contains d
      · rw [if_pos hd, specPreferredWalk_nonpos rest s n hn]
      · rw [if_neg hd]
    · simp only [if_neg hn]
      by_cases hd : s.contains d
      · rw [if_pos hd, if_pos hd, ih s n]
      · rw [if_neg hd, if_neg hd]
        exact ih (s ++ [d]) (n - 1)

/-- Claim C4: `GetPreferredAllocation` computes each container's preferred
list by exactly the spec's algorithm (seed with the must-include ids in
order, set `remaining = desired_count - len(result)`, then walk the
available ids appending each id not already present while
`remaining > 0`), and on available `[a,b,c,d]`, must-include `[a]`,
desired count 2 the result is `[a, b]`. -/
theorem GetPreferredAllocation_algorithm :
    (∀ req : ContainerPreferredAllocationRequest,
        selectedDeviceIDs req = specPreferredAllocation req)
    ∧ selectedDeviceIDs ⟨["a", "b", "c", "d"], ["a"], 2⟩ = ["a", "b"] := by
  refine ⟨fun req => ?_, by decide⟩
  exact selectLoop_eq_specWalk req.AvailableDeviceIDs req.MustIncludeDeviceIDs _

/-- Claim C2 counterexample: the source seeds the result with the
must-include ids without deduplicating, so must-include `[a, a]` (desired
count 2) yields `a` twice, not exactly once; and must-include `[a, b]`
with desired count 1 yields 2 ids, more than the desired count. -/
theorem GetPreferredAllocation_dedup_refuted :
    (selectedDeviceIDs ⟨[], ["a", "a"], 2⟩).count "a" ≠ 1
    ∧ 1 < (selectedDeviceIDs ⟨[], ["a", "b"], 1⟩).length := by
  decide

/-- Claim C2 (amended): per container, the preferred list never has more
than `max(desired_count, len(must_include))` ids, includes every
must-include id with exactly the multiplicity it has in the must-include
list (duplicates preserved, not deduplicated), and never includes an id
outside the union of the must-include and available lists. -/
theorem GetPreferredAllocation_bounds
    (req : ContainerPreferredAllocationRequest) :
    ((selectedDeviceIDs req).length : Int)
      ≤ max req.AllocationSize (req.MustIncludeDeviceIDs.length : Int)
    ∧ (∀ id ∈ req.MustIncludeDeviceIDs,
        (selectedDeviceIDs req).count id
          = req.MustIncludeDeviceIDs.count id)
    ∧ (∀ id ∈ selectedDeviceIDs req,
        id ∈ req.MustIncludeDeviceIDs ∨ id ∈ req.AvailableDeviceIDs) := by
  refine ⟨?_, ?_, ?_⟩
  · have h := selectLoop_length req.AvailableDeviceIDs req.MustIncludeDeviceIDs
      (req.AllocationSize - (req.MustIncludeDeviceIDs.length : Int))
    simp only [selectedDeviceIDs]
    rcases le_total req.AllocationSize
        ((req.MustIncludeDeviceIDs.length : Int)) with hle | hle
    · rw [max_eq_right hle]
      rw [max_eq_right (by omega : req.AllocationSize
          - ((req.MustIncludeDeviceIDs.length : Int)) ≤ 0)] at h
      omega
    · rw [max_eq_left hle]
      rw [max_eq_left (by omega : (0 : Int) ≤ req.AllocationSize
          - ((req.MustIncludeDeviceIDs.length : Int)))] at h
      omega
  · intro id hid
    exact selectLoop_count req.AvailableDeviceIDs req.MustIncludeDeviceIDs _
      id hid
  · intro id hid
    exact selectLoop_subset req.AvailableDeviceIDs req.MustIncludeDeviceIDs _
      id hid

/-- Witness for C2 (amended), at available `[b]`, must-include `[a, a]`,
desired count 3: the selection has at most 3 ids, contains `a` exactly
twice, and `b` came from the available list. -/
theorem GetPreferredAllocation_bounds_witness :
    ((selectedDeviceIDs ⟨["b"], ["a", "a"], 3⟩).length : Int)
      ≤ max (3 : Int) (((["a", "a"] : List String).length : Nat) : Int)
    ∧ (selectedDeviceIDs ⟨["b"], ["a", "a"], 3⟩).count "a"
        = (["a", "a"] : List String).count "a"
    ∧ ("b" ∈ (["a", "a"] : List String) ∨ "b" ∈ (["b"] : List String)) := by
  have h := GetPreferredAllocation_bounds ⟨["b"], ["a", "a"], 3⟩
  exact ⟨h.1, h.2.1 "a" (by decide), h.2.2 "b" (by decide)⟩

/-- Claim C3: handling a Health Change Event in the watch session leaves
the registry unchanged.  The event is a wake-up only: the channel payload
is a pointer into the registry, so the health value the handler applies
is the health the registry currently records for that id (never a stale
copy), and writing it back is the identity on the registry.  Registry ids
are assumed distinct, as Go map keys are. -/
theorem WatchSession_event_leaves_registry (devices : Registry)
    (eventID : String) (hnd : (devices.map Device.ID).Nodup) :
    handleHealthEvent devices eventID = devices := by
  unfold handleHealthEvent
  cases hget : Registry.get devices eventID with
  | none => rfl
  | some device =>
    have hget' : devices.find? (fun d => d.ID == eventID) = some device := hget
    have hdev_mem : device ∈ devices := List.mem_of_find?_eq_some hget'
    have hdev_id : (device.ID == eventID) = true := by
      have h0 := List.find?_some hget'
      exact h0
    have hfix : ∀ e ∈ devices,
        (if e.ID == eventID then { e with Health := device.Health } else e)
          = e := by
      intro e he
      by_cases h : (e.ID == eventID) = true
      · rw [if_pos h]
        have heq : e = device :=
          List.inj_on_of_nodup_map hnd he hdev_mem (by
            rw [beq_iff_eq] at h hdev_id
            rw [h, hdev_id])
        rw [heq]
      · rw [if_neg h]
    have h2 : devices.map (fun e =>
        if e.ID == eventID then { e with Health := device.Health } else e)
          = devices.map id := by
      refine List.map_congr_left ?_
      intro e he
      rw [hfix e he]
      rfl
    exact h2.trans (List.map_id devices)

/-- Witness for C3: a two-device registry with `ppu-0` unhealthy; the
event for `ppu-0` leaves the registry exactly as it was. -/
theorem WatchSession_event_leaves_registry_witness :
    handleHealthEvent [⟨"ppu-0", Unhealthy⟩, ⟨"ppu-1", Healthy⟩] "ppu-0"
      = [⟨"ppu-0", Unhealthy⟩, ⟨"ppu-1", Healthy⟩] :=
  WatchSession_event_leaves_registry
    [⟨"ppu-0", Unhealthy⟩, ⟨"ppu-1", Healthy⟩] "ppu-0" (by decide)

/-- Claim C5: after one Health Monitor tick body, the registry is exactly
the old registry with every entry's health set to `Healthy` (so every
previously-not-Healthy entry has been transitioned, with ids and size
preserved), the registry outcome does not depend on channel readiness
(the mutation is never lost even when every event is dropped), and an
event is delivered exactly for the previously-unhealthy entries whose
non-blocking send found a ready receiver — otherwise that event is
dropped rather than stalling the tick. -/
theorem HealthMonitor_tick (devices : Registry) (ready : String → Bool) :
    (healthCheckTick devices ready).1
      = devices.map (fun d => { d with Health := Healthy })
    ∧ (healthCheckTick devices ready).1
      = (healthCheckTick devices (fun _ => false)).1
    ∧ (∀ id, id ∈ (healthCheckTick devices ready).2 ↔
        ready id = true ∧ ∃ d ∈ devices, d.ID = id ∧ d.Health ≠ Healthy) := by
  have hmap : ∀ d : Device,
      (if d.Health == Healthy then d else { d with Health := Healthy })
        = { d with Health := Healthy } := by
    intro d
    by_cases h : (d.Health == Healthy) = true
    · rw [if_pos h]
      rw [beq_iff_eq] at h
      cases d with
      | mk i hl =>
        simp only at h
        rw [h]
    · rw [if_neg h]
  refine ⟨List.map_congr_left (fun d _ => hmap d), rfl, ?_⟩
  intro id
  simp only [healthCheckTick, List.mem_filterMap]
  constructor
  · rintro ⟨d, hd, hsome⟩
    by_cases h1 : (d.Health == Healthy) = true
    · rw [if_pos h1] at hsome
      cases hsome
    · rw [if_neg h1] at hsome
      by_cases h2 : ready d.ID = true
      · rw [if_pos h2] at hsome
        injection hsome with hid
        subst hid
        exact ⟨h2, d, hd, rfl, by simpa using h1⟩
      · rw [if_neg h2] at hsome
        cases hsome
  · rintro ⟨hready, d, hd, hid, hh⟩
    refine ⟨d, hd, ?_⟩
    have h1 : ¬ (d.Health == Healthy) = true := by simpa using hh
    rw [if_neg h1, hid, if_pos hready]

/-- Witness for C5: registry `[ppu-0 Unhealthy, ppu-1 Healthy]` with a
receiver ready only for `ppu-0`: the tick heals `ppu-0` and delivers
exactly its event. -/
theorem HealthMonitor_tick_witness :
    (healthCheckTick [⟨"ppu-0", Unhealthy⟩, ⟨"ppu-1", Healthy⟩]
        (fun id => id == "ppu-0")).1
      = [⟨"ppu-0", Healthy⟩, ⟨"ppu-1", Healthy⟩]
    ∧ "ppu-0" ∈ (healthCheckTick [⟨"ppu-0", Unhealthy⟩, ⟨"ppu-1", Healthy⟩]
        (fun id => id == "ppu-0")).2 := by
  have h := HealthMonitor_tick [⟨"ppu-0", Unhealthy⟩, ⟨"ppu-1", Healthy⟩]
    (fun id => id == "ppu-0")
  constructor
  · rw [h.1]
    decide
  · exact (h.2.2 "ppu-0").mpr
      ⟨by decide, ⟨"ppu-0", Unhealthy⟩, by decide, rfl, by decide⟩

/-- Claim C6: for every configured count `n ≥ 0`, registry initialization
succeeds and yields exactly `n` devices with deterministic ids
`ppu-0 .. ppu-(n-1)`, all `Healthy`; count 0 yields the legal empty
registry.  The error component is `none` for every `Int` count — the
source never fails — so in particular a failure can only occur for a
negative count, vacuously. -/
theorem initDevices_spec (n : Nat) (c : Int) :
    (initDevices c).2 = none
    ∧ (initDevices (n : Int)).1.length = n
    ∧ (∀ i, i < n → (initDevices (n : Int)).1[i]? =
        some { ID := "ppu-" ++ toString i, Health := Healthy })
    ∧ (∀ d ∈ (initDevices (n : Int)).1, d.Health = Healthy)
    ∧ (initDevices 0).1 = [] := by
  refine ⟨rfl, ?_, ?_, ?_, rfl⟩
  · simp [initDevices]
  · intro i hi
    simp [initDevices, List.getElem?_map, List.getElem?_range, hi]
  · intro d hd
    simp only [initDevices, List.mem_map, List.mem_range] at hd
    obtain ⟨i, _, rfl⟩ := hd
    rfl

/-- Witness for C6: count 2 yields two devices and `ppu-1` at position 1;
a negative count still reports no error. -/
theorem initDevices_spec_witness :
    (initDevices (-3)).2 = none
    ∧ (initDevices ((2 : Nat) : Int)).1.length = 2
    ∧ (initDevices ((2 : Nat) : Int)).1[1]? =
        some { ID := "ppu-" ++ toString 1, Health := Healthy } := by
  have h := initDevices_spec 2 (-3)
  exact ⟨h.1, h.2.1, h.2.2.1 1 (by decide)⟩

/-- Claim C7 counterexample: the snapshot loop ranges over a Go map,
whose iteration order is unspecified and randomized between iterations;
over the same two-device registry state, two valid iteration orders
produce instance lists that are not byte-for-byte identical. -/
theorem ListAndWatch_snapshot_order_dependent :
    IterationOrder [⟨"ppu-0", Healthy⟩, ⟨"ppu-1", Healthy⟩] [0, 1]
    ∧ IterationOrder [⟨"ppu-0", Healthy⟩, ⟨"ppu-1", Healthy⟩] [1, 0]
    ∧ snapshotUnder [⟨"ppu-0", Healthy⟩, ⟨"ppu-1", Healthy⟩] [0, 1]
        ≠ snapshotUnder [⟨"ppu-0", Healthy⟩, ⟨"ppu-1", Healthy⟩] [1, 0] := by
  refine ⟨by decide, by decide, by decide⟩

/-- Claim C7 (amended): two `ListAndWatch` snapshots built from the same
registry state, with no intervening health changes, agree up to iteration
order: under any two valid map iteration orders the resulting instance
lists are permutations of each other (the same instances with the same
multiplicities); byte-for-byte identity of the two lists holds only when
the runtime happens to choose the same order twice, which Go does not
guarantee. -/
theorem ListAndWatch_snapshot_perm (devices : Registry) (o1 o2 : List Nat)
    (h1 : IterationOrder devices o1) (h2 : IterationOrder devices o2) :
    (snapshotUnder devices o1).Perm (snapshotUnder devices o2) :=
  List.Perm.filterMap _ (h1.trans h2.symm)

/-- Witness for C7 (amended): the two snapshots from the counterexample's
registry state are permutations of each other. -/
theorem ListAndWatch_snapshot_perm_witness :
    (snapshotUnder [⟨"ppu-0", Healthy⟩, ⟨"ppu-1", Healthy⟩] [0, 1]).Perm
      (snapshotUnder [⟨"ppu-0", Healthy⟩, ⟨"ppu-1", Healthy⟩] [1, 0]) :=
  ListAndWatch_snapshot_perm [⟨"ppu-0", Healthy⟩, ⟨"ppu-1", Healthy⟩]
    [0, 1] [1, 0] (by decide) (by decide)

/-- Claim C8: `Allocate` and `GetPreferredAllocation` never return a
call-level failure (their error component is `none` for every input), and
a container whose requested ids are all absent or unhealthy simply
receives an empty allocation: an empty allocated list and count `"0"`. -/
theorem Allocate_never_fails (devices : Registry)
    (containerRequests : List (List String))
    (preferredRequests : List ContainerPreferredAllocationRequest)
    (requested : List String) :
    (Allocate devices containerRequests).2 = none
    ∧ (GetPreferredAllocation preferredRequests).2 = none
    ∧ ((∀ id ∈ requested, isHealthyIn devices id = false) →
        allocatedDevices devices requested = []
        ∧ List.lookup "PPU_DEVICE_COUNT"
            (allocateContainer devices requested).Envs = some "0") := by
  refine ⟨rfl, rfl, fun hall => ?_⟩
  have hempty : allocatedDevices devices requested = [] := by
    simp only [allocatedDevices]
    rw [List.filter_eq_nil_iff]
    intro a ha
    simp [hall a ha]
  have hl : List.lookup "PPU_DEVICE_COUNT"
      (allocateContainer devices requested).Envs
        = some (toString (allocatedDevices devices requested).length) := rfl
  refine ⟨hempty, ?_⟩
  rw [hl, hempty]
  rfl

/-- Witness for C8: requesting the unknown id `ppu-9` from a one-device
registry yields an empty allocation with count `"0"`. -/
theorem Allocate_never_fails_witness :
    (∀ id ∈ ["ppu-9"],
        isHealthyIn ([⟨"ppu-0", Healthy⟩] : Registry) id = false)
    ∧ allocatedDevices [⟨"ppu-0", Healthy⟩] ["ppu-9"] = []
    ∧ List.lookup "PPU_DEVICE_COUNT"
        (allocateContainer [⟨"ppu-0", Healthy⟩] ["ppu-9"]).Envs
      = some "0" := by
  have h := (Allocate_never_fails [⟨"ppu-0", Healthy⟩] [] []
    ["ppu-9"]).2.2 (by decide)
  exact ⟨by decide, h.1, h.2⟩

/-- Claim C10: `Allocate` does not deduplicate requested ids: if a
registered `Healthy` id occurs `k > 1` times in a container request, the
allocated list contains it `k` times, the count env var is the decimal
length of the whole allocated list (counting all `k` occurrences), the
joined env var and annotation join the whole allocated list (repeating
the id `k` times), and the response carries one identical device binding
`/dev/<id> -> /dev/null` per occurrence, `k` of them. -/
theorem Allocate_duplicates_preserved (devices : Registry)
    (requested : List String) (id : String) (k : Nat)
    (hh : isHealthyIn devices id = true)
    (hk : requested.count id = k) (_hk1 : 1 < k) :
    (allocatedDevices devices requested).count id = k
    ∧ List.lookup "PPU_DEVICE_COUNT"
        (allocateContainer devices requested).Envs
      = some (toString (allocatedDevices devices requested).length)
    ∧ List.lookup "PPU_ALLOCATED_DEVICES"
        (allocateContainer devices requested).Envs
      = some (String.intercalate "," (allocatedDevices devices requested))
    ∧ (allocateContainer devices requested).Annotations
      = [("ppu.alibabacloud.com/allocated-devices",
          String.intercalate "," (allocatedDevices devices requested))]
    ∧ (allocateContainer devices requested).Devices
      = (allocatedDevices devices requested).map deviceSpecFor
    ∧ (allocateContainer devices requested).Devices.count (deviceSpecFor id)
      = k := by
  have hcount : (allocatedDevices devices requested).count id = k := by
    rw [← hk]
    exact List.count_filter hh
  refine ⟨hcount, rfl, rfl, rfl, rfl, ?_⟩
  have hinj : Function.Injective deviceSpecFor := by
    intro a b hab
    have h1 : "/dev/" ++ a = "/dev/" ++ b :=
      congrArg DeviceSpec.ContainerPath hab
    have hdata := congrArg String.data h1
    rw [String.data_append, String.data_append] at hdata
    exact String.ext (List.append_cancel_left hdata)
  show ((allocatedDevices devices requested).map deviceSpecFor).count
      (deviceSpecFor id) = k
  rw [List.count_map_of_injective _ _ hinj, hcount]

/-- Witness for C10: `ppu-0` requested twice from a registry where it is
`Healthy` is allocated twice, with two identical device bindings. -/
theorem Allocate_duplicates_preserved_witness :
    (allocatedDevices [⟨"ppu-0", Healthy⟩] ["ppu-0", "ppu-0"]).count "ppu-0"
      = 2
    ∧ (allocateContainer [⟨"ppu-0", Healthy⟩]
        ["ppu-0", "ppu-0"]).Devices.count (deviceSpecFor "ppu-0") = 2 := by
  have h := Allocate_duplicates_preserved [⟨"ppu-0", Healthy⟩]
    ["ppu-0", "ppu-0"] "ppu-0" 2 (by decide) (by decide) (by decide)
  exact ⟨h.1, h.2.2.2.2.2⟩

end PPU
